import Mathlib

/-!
Verification of the appointment-lifecycle / reminder subsystem of the
wellness app in `src/index.tsx`, as a shallow embedding in Lean 4.

Modelling conventions:
* Calendar dates and timestamps are abstracted to `Nat` values representing
  the parsed instant (`new Date(app.date.replace(...))` and `Date.now()`
  both become `Nat`s compared with `<`); only their ordering matters to the
  code under verification.
* `localStorage` key `users` (a JSON object keyed by mobile number) becomes
  an association list `Users := List (String × UserRecord)`; JSON object
  keys are unique, and a whole-record write replaces the entry in place.
* `sessionStorage` keys `reminded_<id>` become a list of marked ids.
* JS `undefined` fields (`status?`) become `Option`.
* Fallible async operations return their value-level results (`Bool` in the
  source); a JS `TypeError` crash path (pushing onto the appointments of a
  missing user record in `bookAppointment`) is modelled as `Option.none`.
-/

/-- `interface Therapy` in `src/index.tsx`. -/
structure Therapy where
  name : String
  duration : Nat
  image : String
deriving DecidableEq, Repr

/-- `status?: 'upcoming' | 'confirmed' | 'completed'` values. -/
inductive Status where
  | upcoming
  | confirmed
  | completed
deriving DecidableEq, Repr

/-- `interface Appointment` in `src/index.tsx`; `date` is the parsed
instant of the stored ISO string, `bookedAt` likewise. `status` is
optional in the source, hence `Option Status`. -/
structure Appointment where
  id : Nat
  therapies : List Therapy
  date : Nat
  time : String
  bookedAt : Nat
  centerRating : Option Nat
  status : Option Status
deriving DecidableEq, Repr

/-- A user record as stored under the `users` key: only the fields the
appointment subsystem touches (`appointments`), plus identity. -/
structure UserRecord where
  mobileNumber : String
  appointments : List Appointment
deriving DecidableEq, Repr

/-- The persisted `users` mapping: mobile number to record. -/
def Users := List (String × UserRecord)
deriving DecidableEq

/-- `users[mobileNumber]` lookup on the parsed JSON object. -/
def getUser (users : Users) (m : String) : Option UserRecord :=
  (List.find? (fun p => p.1 == m) users).map (fun p => p.2)

/-- Writing the mutated record back: JSON object keys are unique, so the
entry for `m` is replaced in place (the rest of the mapping is untouched). -/
def putUser (m : String) (u : UserRecord) : Users → Users
  | [] => [(m, u)]
  | p :: rest => if p.1 == m then (m, u) :: rest else p :: putUser m u rest

/-- The draft built by `SchedulingPage.handleFinishBooking`: an appointment
without `id` and `status` (those are added by `bookAppointment`). -/
structure Draft where
  therapies : List Therapy
  date : Nat
  time : String
  bookedAt : Nat
  centerRating : Nat
deriving DecidableEq, Repr

/-- `apiService.bookAppointment`: reads the current user's record, builds
`{...appointment, id: Date.now(), status: 'upcoming'}`, pushes it onto
`users[mobileNumber].appointments` and writes the mapping back. Returns
`false` when there is no current user. `users[mobileNumber]` being absent
would be a JS `TypeError` (`.appointments` of `undefined`), modelled as
`none`. `now` is the value of `Date.now()`. -/
def bookAppointment (users : Users) (currentUser : Option String)
    (now : Nat) (draft : Draft) : Option (Bool × Users) :=
  match currentUser with
  | none => some (false, users)
  | some m =>
    match getUser users m with
    | none => none
    | some user =>
      let newAppointmentWithMeta : Appointment :=
        { id := now, therapies := draft.therapies, date := draft.date,
          time := draft.time, bookedAt := draft.bookedAt,
          centerRating := some draft.centerRating, status := some .upcoming }
      some (true, putUser m
        { user with appointments := user.appointments ++ [newAppointmentWithMeta] }
        users)

/-- `user.appointments.findIndex(app => app.id === appointmentId)` followed
by `user.appointments[i].status = status`: update the FIRST appointment with
the given id; `none` when `findIndex` returns `-1`. -/
def setStatusFirst (appointmentId : Nat) (status : Status) :
    List Appointment → Option (List Appointment)
  | [] => none
  | a :: rest =>
    if a.id == appointmentId then
      some ({ a with status := some status } :: rest)
    else
      (setStatusFirst appointmentId status rest).map (fun l => a :: l)

/-- `apiService.updateAppointmentStatus`: returns `false` (no write) when
there is no current user, no record for them, or no appointment with the
given id; otherwise overwrites that appointment's `status` and persists the
whole mapping. -/
def updateAppointmentStatus (users : Users) (currentUser : Option String)
    (appointmentId : Nat) (status : Status) : Bool × Users :=
  match currentUser with
  | none => (false, users)
  | some m =>
    match getUser users m with
    | none => (false, users)
    | some user =>
      match setStatusFirst appointmentId status user.appointments with
      | none => (false, users)
      | some apps =>
        (true, putUser m { user with appointments := apps } users)

/-- `apiService.getAppointments`: the current user's appointment list, or
`[]` when there is no current user or no record. -/
def getAppointments (users : Users) (currentUser : Option String) :
    List Appointment :=
  match currentUser with
  | none => []
  | some m =>
    match getUser users m with
    | none => []
    | some user => user.appointments

/-- The filter inside `App.checkUpcomingAppointments`:
`app.status === 'upcoming' && appDate > now && !reminded`. -/
def eligibleForReminder (now : Nat) (marked : List Nat)
    (app : Appointment) : Bool :=
  app.status == some .upcoming && now < app.date && !(marked.contains app.id)

/-- `App.checkUpcomingAppointments`: `appointments.find(...)` with the
eligibility predicate; returns the reminder to surface, if any. -/
def checkUpcomingAppointments (appointments : List Appointment) (now : Nat)
    (marked : List Nat) : Option Appointment :=
  appointments.find? (eligibleForReminder now marked)

/-- Pages of the UI, as in `type Page`. -/
inductive Page where
  | Home | Analysis | Schedule | History | Settings | Profile
deriving DecidableEq, Repr

/-- One entry of the `notifications` state: `{ id: number; message: string }`,
with `id = Date.now()` at push time. -/
structure Notification where
  id : Nat
  message : String
deriving DecidableEq, Repr

/-- A pending `setTimeout` scheduled by `addNotification`: fires at
`fireAt` and removes the entries bearing `targetId`. -/
structure NotifTimer where
  fireAt : Nat
  targetId : Nat
deriving DecidableEq, Repr

/-- The `App` component state relevant to the claims: persisted `users`
mapping, the session's current user, the session `reminded_<id>` markers,
the surfaced reminder, the notification queue with its pending expiry
timers, and the navigation pair. -/
structure AppSt where
  users : Users
  currentUser : Option String
  sessionMarked : List Nat
  reminderAppointment : Option Appointment
  notifications : List Notification
  timers : List NotifTimer
  currentPage : Page
  previousPage : Page
deriving DecidableEq

/-- `App.addNotification` at instant `now`: pushes `{id: Date.now(), message}`
and schedules a `setTimeout(..., 3000)` that will filter that id out. -/
def addNotification (now : Nat) (message : String) (st : AppSt) : AppSt :=
  { st with
      notifications := st.notifications ++ [{ id := now, message := message }],
      timers := st.timers ++ [{ fireAt := now + 3000, targetId := now }] }

/-- The body of the `setTimeout` callback in `addNotification`:
`prev.filter(n => n.id !== id)`. -/
def expireNotification (id : Nat) (notifications : List Notification) :
    List Notification :=
  notifications.filter (fun n => n.id != id)

/-- Firing one pending timer: remove it from the schedule and run its
filter over the queue. -/
def fireTimer (t : NotifTimer) (st : AppSt) : AppSt :=
  { st with
      notifications := expireNotification t.targetId st.notifications,
      timers := st.timers.erase t }

/-- `App.handleNavigate`. -/
def handleNavigate (page : Page) (st : AppSt) : AppSt :=
  if page != st.currentPage then
    { st with previousPage := st.currentPage, currentPage := page }
  else st

/-- `App.handleConfirmReminder` at instant `now`: no-op without a surfaced
reminder; otherwise awaits `updateAppointmentStatus(id, 'confirmed')`
(its boolean result is discarded by the source), sets the session marker,
pushes the `Appointment Confirmed!` notification, and clears the reminder. -/
def handleConfirmReminder (now : Nat) (st : AppSt) : AppSt :=
  match st.reminderAppointment with
  | none => st
  | some app =>
    let (_ok, users) :=
      updateAppointmentStatus st.users st.currentUser app.id .confirmed
    let st := { st with
      users := users,
      sessionMarked := app.id :: st.sessionMarked }
    let st := addNotification now "Appointment Confirmed!" st
    { st with reminderAppointment := none }

/-- `App.handleRescheduleReminder`: sets the session marker, navigates to
`Schedule`, clears the reminder. -/
def handleRescheduleReminder (st : AppSt) : AppSt :=
  match st.reminderAppointment with
  | none => st
  | some app =>
    let st := { st with sessionMarked := app.id :: st.sessionMarked }
    let st := handleNavigate .Schedule st
    { st with reminderAppointment := none }

/-- `App.handleDismissReminder`: sets the session marker, clears the
reminder. -/
def handleDismissReminder (st : AppSt) : AppSt :=
  match st.reminderAppointment with
  | none => st
  | some app =>
    { st with
        sessionMarked := app.id :: st.sessionMarked,
        reminderAppointment := none }

/-- `SchedulingPage` component state. `step` starts at 1; `selectedDate`
and `selectedTime` start empty (`''`, modelled as `none`); the persisted
`users` mapping is carried so that the booking step can write to it. -/
structure SchedSt where
  step : Nat
  selectedTherapies : List Therapy
  selectedDate : Option Nat
  selectedTime : Option String
  centerRating : Nat
  showConfirmation : Bool
  users : Users
  currentUser : Option String
deriving DecidableEq

/-- Initial `SchedulingPage` state over a given store. -/
def schedInit (users : Users) (currentUser : Option String) : SchedSt :=
  { step := 1, selectedTherapies := [], selectedDate := none,
    selectedTime := none, centerRating := 0, showConfirmation := false,
    users := users, currentUser := currentUser }

/-- The user interactions `SchedulingPage` renders. Each carries the data
the corresponding handler reads from the UI; `finish` carries the
`Date.now()` instants used for `bookedAt` and the new id. -/
inductive SchedEvent where
  | toggleTherapy (t : Therapy)
  | nextStep
  | dateSelect (d : Nat)
  | timeSelect (time : String)
  | bookNow
  | confirmBooking
  | setRating (r : Nat)
  | finish (now : Nat)
deriving DecidableEq, Repr

/-- `toggleTherapy`: remove the therapy if one of the same name is
selected, append it otherwise. -/
def toggleTherapy (t : Therapy) (sel : List Therapy) : List Therapy :=
  if (sel.find? (fun x => x.name == t.name)).isSome then
    sel.filter (fun x => x.name != t.name)
  else sel ++ [t]

/-- One `SchedulingPage` interaction. Guards reproduce both the handlers'
own checks and the rendering: the therapy grid and Next button exist only
at step 1, the calendar/slots/Book Now only at step 2, the rating and
Finish button only at step 3 (Finish additionally disabled while
`centerRating == 0`), and the confirmation modal's Confirm only while
shown. `handleNextStep` advances only when `step === 1` and a therapy is
selected; `handleBookNow` opens the modal only when date and time are both
set (else it only alerts); `handleFinishBooking` books the draft. -/
def schedStep (s : SchedSt) : SchedEvent → SchedSt
  | .toggleTherapy t =>
    if s.step == 1 then
      { s with selectedTherapies := toggleTherapy t s.selectedTherapies }
    else s
  | .nextStep =>
    if s.step == 1 && !s.selectedTherapies.isEmpty then
      { s with step := 2 }
    else s
  | .dateSelect d =>
    if s.step == 2 then { s with selectedDate := some d } else s
  | .timeSelect t =>
    if s.step == 2 then { s with selectedTime := some t } else s
  | .bookNow =>
    if s.step == 2 && s.selectedDate.isSome && s.selectedTime.isSome then
      { s with showConfirmation := true }
    else s
  | .confirmBooking =>
    if s.showConfirmation then
      { s with showConfirmation := false, step := 3 }
    else s
  | .setRating r =>
    if s.step == 3 then { s with centerRating := r } else s
  | .finish now =>
    if s.step == 3 && s.centerRating != 0 then
      let draft : Draft :=
        { therapies := s.selectedTherapies,
          date := s.selectedDate.getD 0,
          time := s.selectedTime.getD "",
          bookedAt := now, centerRating := s.centerRating }
      match bookAppointment s.users s.currentUser now draft with
      | some (_success, users) => { s with users := users }
      | none => s
    else s

/-- Run a sequence of interactions from a state. -/
def schedRun (s : SchedSt) : List SchedEvent → SchedSt
  | [] => s
  | e :: es => schedRun (schedStep s e) es

/-! ## Shared sample data for witnesses and counterexamples -/

/-- Sample appointment: id 1, future date, status `upcoming`. -/
def apptTomorrow : Appointment :=
  { id := 1, therapies := [{ name := "KARAMA", duration := 45, image := "" }],
    date := 10, time := "8:00am", bookedAt := 0, centerRating := none,
    status := some .upcoming }

/-- Sample appointment: id 2, past date, status `upcoming`. -/
def apptYesterday : Appointment :=
  { id := 2, therapies := [{ name := "ENEMA", duration := 60, image := "" }],
    date := 1, time := "8:00am", bookedAt := 0, centerRating := none,
    status := some .upcoming }

/-- Sample appointment with no `status` field. -/
def apptNoStatus : Appointment :=
  { id := 3, therapies := [{ name := "KARAMA", duration := 45, image := "" }],
    date := 10, time := "8:00am", bookedAt := 0, centerRating := none,
    status := none }

/-- Sample persisted mapping: one user, one appointment (id 1). -/
def usersSample : Users :=
  [("9876543210", { mobileNumber := "9876543210",
                    appointments := [apptTomorrow] })]

/-! ## Helper lemmas -/

/-- A `find?` hit is the first element satisfying the predicate: everything
before it in the list fails the predicate. -/
theorem find?_first {α : Type} (p : α → Bool) (l : List α) (a : α)
    (h : l.find? p = some a) :
    ∃ l1 l2, l = l1 ++ a :: l2 ∧ ∀ b ∈ l1, p b = false := by
  induction l with
  | nil => simp [List.find?] at h
  | cons x xs ih =>
    by_cases hp : p x = true
    · rw [List.find?_cons_of_pos _ hp] at h
      refine ⟨[], xs, ?_, by simp⟩
      simpa using h
    · rw [List.find?_cons_of_neg _ hp] at h
      obtain ⟨l1, l2, rfl, hall⟩ := ih h
      refine ⟨x :: l1, l2, rfl, ?_⟩
      intro b hb
      rcases List.mem_cons.mp hb with rfl | hb
      · exact Bool.not_eq_true _ ▸ (by simpa using hp)
      · exact hall b hb

/-- Unfold the reminder eligibility filter into its three conjuncts. -/
theorem eligibleForReminder_iff (now : Nat) (marked : List Nat)
    (app : Appointment) :
    eligibleForReminder now marked app = true ↔
      app.status = some .upcoming ∧ now < app.date ∧ app.id ∉ marked := by
  simp [eligibleForReminder, List.contains, and_assoc]

/-- An id already in the session markers is never selected. -/
theorem marked_id_not_selected (apps : List Appointment) (now : Nat)
    (marked : List Nat) (i : Nat) (hi : i ∈ marked) (b : Appointment)
    (hb : checkUpcomingAppointments apps now marked = some b) :
    b.id ≠ i := by
  have helig := List.find?_some hb
  rw [eligibleForReminder_iff] at helig
  intro hbi
  exact helig.2.2 (hbi ▸ hi)

/-! ## C1 -/

/-- C1: the reminder selection run on login returns at most one appointment
(it is an `Option`); when it returns one, that appointment has status
`upcoming`, its date is strictly after `now`, its id is not among the
session's `reminded` markers, and it is the first appointment in list order
satisfying the filter; when no appointment satisfies the filter, it returns
none. -/
theorem reminder_selection_spec (apps : List Appointment) (now : Nat)
    (marked : List Nat) :
    (∀ a, checkUpcomingAppointments apps now marked = some a →
      (a.status = some .upcoming ∧ now < a.date ∧ a.id ∉ marked ∧
       ∃ l1 l2, apps = l1 ++ a :: l2 ∧
         ∀ b ∈ l1, eligibleForReminder now marked b = false))
    ∧ (checkUpcomingAppointments apps now marked = none ↔
        ∀ a ∈ apps, eligibleForReminder now marked a = false) := by
  constructor
  · intro a ha
    have helig := List.find?_some ha
    rw [eligibleForReminder_iff] at helig
    obtain ⟨l1, l2, hsplit, hall⟩ := find?_first _ _ _ ha
    exact ⟨helig.1, helig.2.1, helig.2.2, l1, l2, hsplit, hall⟩
  · constructor
    · intro h a ha
      have := List.find?_eq_none.mp h a ha
      simpa using this
    · intro h
      apply List.find?_eq_none.mpr
      intro a ha
      simp [h a ha]

/-- Witness for C1 on the spec's scenario: appointments
`[{id 1, tomorrow, upcoming}, {id 2, yesterday, upcoming}]` at `now = 5`
with no session markers: id 1 is selected, and the conclusions hold for
it. -/
theorem reminder_selection_spec_witness :
    checkUpcomingAppointments [apptTomorrow, apptYesterday] 5 []
        = some apptTomorrow
    ∧ apptTomorrow.status = some .upcoming
    ∧ 5 < apptTomorrow.date
    ∧ apptTomorrow.id ∉ ([] : List Nat) :=
  ⟨by decide,
   ((reminder_selection_spec [apptTomorrow, apptYesterday] 5 []).1
      apptTomorrow (by decide)).1,
   ((reminder_selection_spec [apptTomorrow, apptYesterday] 5 []).1
      apptTomorrow (by decide)).2.1,
   ((reminder_selection_spec [apptTomorrow, apptYesterday] 5 []).1
      apptTomorrow (by decide)).2.2.1⟩

/-! ## C2 -/

/-- Sample `App` state with a surfaced reminder for appointment id 1. -/
def stSample : AppSt :=
  { users := usersSample, currentUser := some "9876543210",
    sessionMarked := [], reminderAppointment := some apptTomorrow,
    notifications := [], timers := [], currentPage := .Home,
    previousPage := .Home }

/-- C2: each of the three resolution paths — confirm, reschedule, dismiss —
applied to a state whose surfaced reminder is appointment `app` leaves the
session `reminded` marker set for `app.id` and the reminder cleared, and
every subsequent reminder-selection call over those session markers never
returns an appointment with `app.id` (regardless of whether the confirm
path's status update succeeded: its boolean result is not consulted). -/
theorem resolution_marks_and_excludes (st : AppSt) (app : Appointment)
    (now : Nat) (h : st.reminderAppointment = some app) :
    (app.id ∈ (handleConfirmReminder now st).sessionMarked
      ∧ (handleConfirmReminder now st).reminderAppointment = none
      ∧ ∀ apps now2 b,
          checkUpcomingAppointments apps now2
            (handleConfirmReminder now st).sessionMarked = some b →
          b.id ≠ app.id)
    ∧ (app.id ∈ (handleRescheduleReminder st).sessionMarked
      ∧ (handleRescheduleReminder st).reminderAppointment = none
      ∧ ∀ apps now2 b,
          checkUpcomingAppointments apps now2
            (handleRescheduleReminder st).sessionMarked = some b →
          b.id ≠ app.id)
    ∧ (app.id ∈ (handleDismissReminder st).sessionMarked
      ∧ (handleDismissReminder st).reminderAppointment = none
      ∧ ∀ apps now2 b,
          checkUpcomingAppointments apps now2
            (handleDismissReminder st).sessionMarked = some b →
          b.id ≠ app.id) := by
  have hc : (handleConfirmReminder now st).sessionMarked
      = app.id :: st.sessionMarked := by
    simp [handleConfirmReminder, h, addNotification]
  have hcr : (handleConfirmReminder now st).reminderAppointment = none := by
    simp [handleConfirmReminder, h, addNotification]
  have hr : (handleRescheduleReminder st).sessionMarked
      = app.id :: st.sessionMarked := by
    simp only [handleRescheduleReminder, h, handleNavigate]
    split <;> rfl
  have hrr : (handleRescheduleReminder st).reminderAppointment = none := by
    simp only [handleRescheduleReminder, h, handleNavigate]
  have hd : (handleDismissReminder st).sessionMarked
      = app.id :: st.sessionMarked := by
    simp [handleDismissReminder, h]
  have hdr : (handleDismissReminder st).reminderAppointment = none := by
    simp [handleDismissReminder, h]
  refine ⟨⟨?_, hcr, ?_⟩, ⟨?_, hrr, ?_⟩, ⟨?_, hdr, ?_⟩⟩
  · rw [hc]; exact List.mem_cons_self _ _
  · intro apps now2 b hb
    exact marked_id_not_selected apps now2 _ app.id
      (by rw [hc]; exact List.mem_cons_self _ _) b hb
  · rw [hr]; exact List.mem_cons_self _ _
  · intro apps now2 b hb
    exact marked_id_not_selected apps now2 _ app.id
      (by rw [hr]; exact List.mem_cons_self _ _) b hb
  · rw [hd]; exact List.mem_cons_self _ _
  · intro apps now2 b hb
    exact marked_id_not_selected apps now2 _ app.id
      (by rw [hd]; exact List.mem_cons_self _ _) b hb

/-- Witness for C2 at the sample state: the surfaced reminder (id 1) is
marked and excluded on every resolution path. -/
theorem resolution_marks_and_excludes_witness :
    apptTomorrow.id ∈ (handleConfirmReminder 100 stSample).sessionMarked
    ∧ (handleConfirmReminder 100 stSample).reminderAppointment = none
    ∧ apptTomorrow.id ∈ (handleRescheduleReminder stSample).sessionMarked
    ∧ (handleRescheduleReminder stSample).reminderAppointment = none
    ∧ apptTomorrow.id ∈ (handleDismissReminder stSample).sessionMarked
    ∧ (handleDismissReminder stSample).reminderAppointment = none :=
  ⟨(resolution_marks_and_excludes stSample apptTomorrow 100 rfl).1.1,
   (resolution_marks_and_excludes stSample apptTomorrow 100 rfl).1.2.1,
   (resolution_marks_and_excludes stSample apptTomorrow 100 rfl).2.1.1,
   (resolution_marks_and_excludes stSample apptTomorrow 100 rfl).2.1.2.1,
   (resolution_marks_and_excludes stSample apptTomorrow 100 rfl).2.2.1,
   (resolution_marks_and_excludes stSample apptTomorrow 100 rfl).2.2.2.1⟩

/-! ## C3 -/

/-- An appointment id (42) that is NOT in the sample user's collection. -/
def apptGhost : Appointment :=
  { id := 42, therapies := [{ name := "KARAMA", duration := 45, image := "" }],
    date := 10, time := "8:00am", bookedAt := 0, centerRating := none,
    status := some .upcoming }

/-- `App` state whose surfaced reminder (id 42) is absent from the user's
stored collection (which holds only id 1). -/
def stGhost : AppSt :=
  { users := usersSample, currentUser := some "9876543210",
    sessionMarked := [], reminderAppointment := some apptGhost,
    notifications := [], timers := [], currentPage := .Home,
    previousPage := .Home }

/-- C3 (observed bug): confirming a reminder whose appointment id is not in
the user's collection: the repository call does signal NotFound (returns
`false`), but `handleConfirmReminder` discards that result and still pushes
the `Appointment Confirmed!` notification — the NotFound is swallowed into
a false success, contrary to the spec's requirement. -/
theorem confirm_swallows_notfound :
    (updateAppointmentStatus stGhost.users stGhost.currentUser 42
        .confirmed).1 = false
    ∧ (handleConfirmReminder 100 stGhost).notifications.map
        (fun n => n.message) = ["Appointment Confirmed!"] := by
  constructor <;> rfl

/-! ## Repository lemmas for C4 / C7 -/

/-- If no appointment has the id, `findIndex` misses and no update occurs. -/
theorem setStatusFirst_eq_none (id : Nat) (st : Status)
    (l : List Appointment) (h : ∀ a ∈ l, a.id ≠ id) :
    setStatusFirst id st l = none := by
  induction l with
  | nil => rfl
  | cons a rest ih =>
    have ha : ¬ (a.id = id) := h a (List.mem_cons_self a rest)
    simp [setStatusFirst, ha,
      ih (fun b hb => h b (List.mem_cons_of_mem a hb))]

/-- If some appointment has the id, the update succeeds. -/
theorem setStatusFirst_isSome (id : Nat) (st : Status)
    (l : List Appointment) (h : ∃ a ∈ l, a.id = id) :
    ∃ l2, setStatusFirst id st l = some l2 := by
  induction l with
  | nil => simp at h
  | cons a rest ih =>
    by_cases ha : a.id = id
    · exact ⟨{ a with status := some st } :: rest,
        by simp [setStatusFirst, ha]⟩
    · obtain ⟨b, hb, hbid⟩ := h
      rcases List.mem_cons.mp hb with rfl | hb
      · exact absurd hbid ha
      · obtain ⟨l2, hl2⟩ := ih ⟨b, hb, hbid⟩
        exact ⟨a :: l2, by simp [setStatusFirst, ha, hl2]⟩

/-- Overwriting the status of the first match is idempotent on the list. -/
theorem setStatusFirst_idem (id : Nat) (st : Status)
    (l l2 : List Appointment) (h : setStatusFirst id st l = some l2) :
    setStatusFirst id st l2 = some l2 := by
  induction l generalizing l2 with
  | nil => simp [setStatusFirst] at h
  | cons a rest ih =>
    by_cases ha : a.id = id
    · simp only [setStatusFirst, ha, beq_self_eq_true, if_true] at h
      obtain rfl := Option.some.inj h
      simp [setStatusFirst, ha]
    · simp only [setStatusFirst, beq_iff_eq, ha, if_false] at h
      cases hr : setStatusFirst id st rest with
      | none => rw [hr] at h; simp at h
      | some r2 =>
        rw [hr] at h
        simp at h
        subst h
        simp [setStatusFirst, ha, ih r2 hr]

/-- Reading back the key just written returns the written record. -/
theorem getUser_putUser (m : String) (u : UserRecord) (users : Users) :
    getUser (putUser m u users) m = some u := by
  induction users with
  | nil => simp [putUser, getUser]
  | cons p rest ih =>
    by_cases hp : p.1 = m
    · simp [putUser, getUser, hp]
    · simp only [putUser, beq_iff_eq, hp, if_false]
      show (List.find? (fun q => q.1 == m) (p :: putUser m u rest)).map
          (fun q => q.2) = some u
      rw [List.find?_cons_of_neg _ (by simp [hp])]
      exact ih

/-- Writing the same record twice in a row is the same as writing it once. -/
theorem putUser_putUser (m : String) (u : UserRecord) (users : Users) :
    putUser m u (putUser m u users) = putUser m u users := by
  induction users with
  | nil => simp [putUser]
  | cons p rest ih =>
    by_cases hp : p.1 = m
    · simp [putUser, hp]
    · simp [putUser, hp, ih]

/-! ## C4 -/

/-- C4: for every current user whose record exists and every appointment id
not present in that user's collection, `updateAppointmentStatus` returns
the failure result `false` and the persisted mapping (hence the user's
collection) is returned unmodified. -/
theorem updateStatus_notfound (users : Users) (m : String)
    (user : UserRecord) (id : Nat) (status : Status)
    (hu : getUser users m = some user)
    (hid : ∀ a ∈ user.appointments, a.id ≠ id) :
    updateAppointmentStatus users (some m) id status = (false, users) := by
  simp [updateAppointmentStatus, hu,
    setStatusFirst_eq_none id status user.appointments hid]

/-- Witness for C4: updating id 99 (absent; the sample user holds only
id 1) fails and leaves the mapping unchanged. -/
theorem updateStatus_notfound_witness :
    updateAppointmentStatus usersSample (some "9876543210") 99 .confirmed
      = (false, usersSample) :=
  updateStatus_notfound usersSample "9876543210"
    { mobileNumber := "9876543210", appointments := [apptTomorrow] }
    99 .confirmed (by decide) (by decide)

/-! ## C7 -/

/-- C7: for a current user whose record exists and an appointment id
present in their collection, running
`updateAppointmentStatus(id, 'confirmed')` twice in a row leaves exactly
the same persisted mapping as running it once. -/
theorem updateStatus_confirmed_idempotent (users : Users) (m : String)
    (user : UserRecord) (id : Nat)
    (hu : getUser users m = some user)
    (hid : ∃ a ∈ user.appointments, a.id = id) :
    (updateAppointmentStatus
        (updateAppointmentStatus users (some m) id .confirmed).2
        (some m) id .confirmed).2
      = (updateAppointmentStatus users (some m) id .confirmed).2 := by
  obtain ⟨l2, hl2⟩ :=
    setStatusFirst_isSome id .confirmed user.appointments hid
  have h1 : updateAppointmentStatus users (some m) id .confirmed
      = (true, putUser m { user with appointments := l2 } users) := by
    simp [updateAppointmentStatus, hu, hl2]
  rw [h1]
  have h2 : getUser (putUser m { user with appointments := l2 } users) m
      = some { user with appointments := l2 } := getUser_putUser m _ users
  simp [updateAppointmentStatus, h2,
    setStatusFirst_idem id .confirmed user.appointments l2 hl2,
    putUser_putUser]

/-- Witness for C7: confirming appointment id 1 (present for the sample
user) twice equals confirming it once. -/
theorem updateStatus_confirmed_idempotent_witness :
    (updateAppointmentStatus
        (updateAppointmentStatus usersSample (some "9876543210") 1
          .confirmed).2
        (some "9876543210") 1 .confirmed).2
      = (updateAppointmentStatus usersSample (some "9876543210") 1
          .confirmed).2 :=
  updateStatus_confirmed_idempotent usersSample "9876543210"
    { mobileNumber := "9876543210", appointments := [apptTomorrow] }
    1 (by decide) (by decide)

/-! ## C5 -/

/-- A valid creation draft: non-empty therapies, date and time set. -/
def draftSample : Draft :=
  { therapies := [{ name := "ENEMA", duration := 60, image := "" }],
    date := 20, time := "10:00am", bookedAt := 1, centerRating := 5 }

/-- C5 counterexample: the sample user already holds appointment id 1; a
create whose `Date.now()` is also 1 succeeds and appends a second
appointment with the SAME id 1 — the code never checks the fresh id
against the collection, so the claimed uniqueness fails. -/
theorem bookAppointment_id_collision :
    (getAppointments usersSample (some "9876543210")).map (fun a => a.id)
        = [1]
    ∧ ((bookAppointment usersSample (some "9876543210") 1 draftSample).map
        (fun r => (getAppointments r.2 (some "9876543210")).map
          (fun a => a.id)))
      = some [1, 1] := by
  constructor <;> rfl

/-- C5 (amended): for a current user whose record exists, a create whose
`Date.now()` differs from every existing appointment id yields `true` and
appends one appointment with `status = upcoming` and `id = now`, which then
differs from every pre-existing id. (The source derives the id from the
timestamp with no uniqueness check, so freshness of the timestamp is a
hypothesis, not a guarantee.) -/
theorem bookAppointment_fresh_upcoming (users : Users) (m : String)
    (user : UserRecord) (now : Nat) (draft : Draft)
    (hu : getUser users m = some user)
    (hfresh : ∀ a ∈ user.appointments, a.id ≠ now) :
    ∃ app : Appointment,
      bookAppointment users (some m) now draft
        = some (true, putUser m
            { user with appointments := user.appointments ++ [app] } users)
      ∧ app.status = some Status.upcoming
      ∧ app.id = now
      ∧ ∀ a ∈ user.appointments, a.id ≠ app.id := by
  refine ⟨{ id := now, therapies := draft.therapies, date := draft.date,
            time := draft.time, bookedAt := draft.bookedAt,
            centerRating := some draft.centerRating,
            status := some .upcoming }, ?_, rfl, rfl, hfresh⟩
  simp [bookAppointment, hu]

/-- Witness for the amended C5: creating at `Date.now() = 100` (fresh for
the sample user, who holds only id 1) appends an `upcoming` appointment
with the fresh id 100. -/
theorem bookAppointment_fresh_upcoming_witness :
    ((bookAppointment usersSample (some "9876543210") 100 draftSample).map
        (fun r => (getAppointments r.2 (some "9876543210")).map
          (fun a => (a.id, a.status))))
      = some [(1, some .upcoming), (100, some .upcoming)] := by
  have h := bookAppointment_fresh_upcoming usersSample "9876543210"
    { mobileNumber := "9876543210", appointments := [apptTomorrow] }
    100 draftSample (by decide) (by decide)
  decide

/-! ## C6 -/

/-- C6 counterexample: an appointment with NO status field, a strictly
future date, and no session marker is not eligible and is not selected —
the filter demands `status === 'upcoming'` literally, so an absent status
is NOT treated as `upcoming` by the reminder selection. -/
theorem no_status_not_selected :
    apptNoStatus.status = none
    ∧ (5 : Nat) < apptNoStatus.date
    ∧ eligibleForReminder 5 [] apptNoStatus = false
    ∧ checkUpcomingAppointments [apptNoStatus] 5 [] = none := by
  refine ⟨rfl, by decide, rfl, rfl⟩

/-- C6 (amended): the reminder selection only ever returns an appointment
whose status field is present and literally `upcoming`; an appointment
with an absent status field is never selected, whatever its date and
markers. -/
theorem reminder_requires_literal_upcoming (apps : List Appointment)
    (now : Nat) (marked : List Nat) (a : Appointment)
    (h : checkUpcomingAppointments apps now marked = some a) :
    a.status = some Status.upcoming := by
  have helig := List.find?_some h
  exact ((eligibleForReminder_iff now marked a).mp helig).1

/-- Witness for the amended C6: the selected appointment in the sample run
has literal status `upcoming`. -/
theorem reminder_requires_literal_upcoming_witness :
    apptTomorrow.status = some Status.upcoming :=
  reminder_requires_literal_upcoming [apptTomorrow] 5 [] apptTomorrow
    (by decide)

/-! ## C8 -/

/-- Invariant of the `SchedulingPage` flow over an initial store `users0`:
while the flow is still at step 1 nothing has been written and no
confirmation modal is up, and an empty therapy selection can only occur at
step 1 (the therapy grid is only rendered there and Next refuses to
advance without a selection). -/
def SchedInv (users0 : Users) (s : SchedSt) : Prop :=
  (s.step = 1 → s.users = users0 ∧ s.showConfirmation = false)
  ∧ (s.selectedTherapies = [] → s.step = 1)

/-- Every single interaction preserves `SchedInv`. -/
theorem schedStep_preserves_inv (users0 : Users) (s : SchedSt)
    (e : SchedEvent) (h : SchedInv users0 s) :
    SchedInv users0 (schedStep s e) := by
  obtain ⟨hA, hB⟩ := h
  cases e with
  | toggleTherapy t =>
    by_cases h1 : s.step = 1
    · have hst : schedStep s (.toggleTherapy t)
          = { s with selectedTherapies := toggleTherapy t s.selectedTherapies } := by
        simp [schedStep, h1]
      rw [hst]
      exact ⟨fun _ => hA h1, fun _ => h1⟩
    · have hst : schedStep s (.toggleTherapy t) = s := by
        simp [schedStep, h1]
      rw [hst]; exact ⟨hA, hB⟩
  | nextStep =>
    by_cases h1 : s.step = 1
    · by_cases h2 : s.selectedTherapies = []
      · have hst : schedStep s .nextStep = s := by
          simp [schedStep, h2]
        rw [hst]; exact ⟨hA, hB⟩
      · have hst : schedStep s .nextStep = { s with step := 2 } := by
          simp [schedStep, h1, h2]
        rw [hst]
        refine ⟨fun hc => ?_, fun hc => absurd hc h2⟩
        have hc2 : (2 : Nat) = 1 := hc
        omega
    · have hst : schedStep s .nextStep = s := by
        simp [schedStep, h1]
      rw [hst]; exact ⟨hA, hB⟩
  | dateSelect d =>
    by_cases h1 : s.step = 2
    · have hst : schedStep s (.dateSelect d)
          = { s with selectedDate := some d } := by
        simp [schedStep, h1]
      rw [hst]; exact ⟨hA, hB⟩
    · have hst : schedStep s (.dateSelect d) = s := by
        simp [schedStep, h1]
      rw [hst]; exact ⟨hA, hB⟩
  | timeSelect t =>
    by_cases h1 : s.step = 2
    · have hst : schedStep s (.timeSelect t)
          = { s with selectedTime := some t } := by
        simp [schedStep, h1]
      rw [hst]; exact ⟨hA, hB⟩
    · have hst : schedStep s (.timeSelect t) = s := by
        simp [schedStep, h1]
      rw [hst]; exact ⟨hA, hB⟩
  | bookNow =>
    by_cases hg : (s.step == 2 && s.selectedDate.isSome
        && s.selectedTime.isSome) = true
    · have h2 : s.step = 2 := by
        simp only [Bool.and_eq_true, beq_iff_eq] at hg
        exact hg.1.1
      have hst : schedStep s .bookNow
          = { s with showConfirmation := true } := by
        simp [schedStep, hg]
      rw [hst]
      refine ⟨fun hc => ?_, fun hc => ?_⟩
      · have hc1 : s.step = 1 := hc
        omega
      · have := hB hc
        omega
    · have hst : schedStep s .bookNow = s := by
        simp only [schedStep]
        rw [if_neg (by simpa using hg)]
      rw [hst]; exact ⟨hA, hB⟩
  | confirmBooking =>
    by_cases hc : s.showConfirmation = true
    · have hst : schedStep s .confirmBooking
          = { s with showConfirmation := false, step := 3 } := by
        simp [schedStep, hc]
      rw [hst]
      refine ⟨fun h1 => ?_, fun hemp => ?_⟩
      · have h1c : (3 : Nat) = 1 := h1
        omega
      · exact absurd hc (by simp [(hA (hB hemp)).2])
    · have hst : schedStep s .confirmBooking = s := by
        simp [schedStep, hc]
      rw [hst]; exact ⟨hA, hB⟩
  | setRating r =>
    by_cases h1 : s.step = 3
    · have hst : schedStep s (.setRating r)
          = { s with centerRating := r } := by
        simp [schedStep, h1]
      rw [hst]; exact ⟨hA, hB⟩
    · have hst : schedStep s (.setRating r) = s := by
        simp [schedStep, h1]
      rw [hst]; exact ⟨hA, hB⟩
  | finish now =>
    by_cases hg : (s.step == 3 && s.centerRating != 0) = true
    · have h3 : s.step = 3 := by
        simp only [Bool.and_eq_true, beq_iff_eq] at hg
        exact hg.1
      rcases hb : bookAppointment s.users s.currentUser now
          { therapies := s.selectedTherapies,
            date := s.selectedDate.getD 0,
            time := s.selectedTime.getD "",
            bookedAt := now, centerRating := s.centerRating }
        with - | ⟨ok, us⟩
      · have hst : schedStep s (.finish now) = s := by
          simp [schedStep, hg, hb]
        rw [hst]; exact ⟨hA, hB⟩
      · have hst : schedStep s (.finish now) = { s with users := us } := by
          simp [schedStep, hg, hb]
        rw [hst]
        refine ⟨fun h1 => ?_, fun hemp => ?_⟩
        · have h1c : s.step = 1 := h1
          omega
        · have := hB hemp
          omega
    · have hst : schedStep s (.finish now) = s := by
        simp only [schedStep]
        rw [if_neg (by simpa using hg)]
      rw [hst]; exact ⟨hA, hB⟩

/-- `SchedInv` holds along every run from the initial state. -/
theorem schedRun_inv (users0 : Users) (cu : Option String)
    (evs : List SchedEvent) :
    SchedInv users0 (schedRun (schedInit users0 cu) evs) := by
  suffices h : ∀ s, SchedInv users0 s →
      SchedInv users0 (schedRun s evs) from
    h _ ⟨fun _ => ⟨rfl, rfl⟩, fun _ => rfl⟩
  induction evs with
  | nil => exact fun s hs => hs
  | cons e es ih =>
    exact fun s hs => ih _ (schedStep_preserves_inv users0 s e hs)

/-- C8: in any state reachable in the scheduling flow whose therapy
selection is empty, the attempt to advance (`handleNextStep`, the only way
toward the booking call) is rejected as a no-op, the flow is still at
step 1 — so the repository's create (reachable only at step 3) was never
invoked — and no record has been written: the store equals the initial
store. -/
theorem sched_empty_therapies_rejected (users0 : Users) (cu : Option String)
    (evs : List SchedEvent)
    (h : (schedRun (schedInit users0 cu) evs).selectedTherapies = []) :
    schedStep (schedRun (schedInit users0 cu) evs) .nextStep
        = schedRun (schedInit users0 cu) evs
    ∧ (schedRun (schedInit users0 cu) evs).step = 1
    ∧ (schedRun (schedInit users0 cu) evs).users = users0 := by
  obtain ⟨hA, hB⟩ := schedRun_inv users0 cu evs
  refine ⟨by simp [schedStep, h], hB h, (hA (hB h)).1⟩

/-- Witness for C8: from a fresh scheduling page (empty selection), Next is
rejected, the flow is at step 1, and the sample store is untouched. -/
theorem sched_empty_therapies_rejected_witness :
    schedStep (schedRun (schedInit usersSample (some "9876543210")) [])
        .nextStep
      = schedRun (schedInit usersSample (some "9876543210")) []
    ∧ (schedRun (schedInit usersSample (some "9876543210")) []).step = 1
    ∧ (schedRun (schedInit usersSample (some "9876543210")) []).users
        = usersSample :=
  sched_empty_therapies_rejected usersSample (some "9876543210") [] rfl

/-! ## C9 -/

/-- C9: pushing a notification at instant `now` schedules its removal for
`now + 3000` (the `setTimeout(..., 3000)`), the pushed entry is in the
queue, firing that timer leaves no entry bearing the pushed id, and the
expiry filter is idempotent — expiring an id that is already gone is a
no-op on the remaining queue. -/
theorem notification_autoexpiry (st : AppSt) (now : Nat) (msg : String)
    (l : List Notification) (id : Nat) :
    (({ fireAt := now + 3000, targetId := now } : NotifTimer)
        ∈ (addNotification now msg st).timers)
    ∧ (({ id := now, message := msg } : Notification)
        ∈ (addNotification now msg st).notifications)
    ∧ (∀ n ∈ (fireTimer { fireAt := now + 3000, targetId := now }
          (addNotification now msg st)).notifications, n.id ≠ now)
    ∧ expireNotification id (expireNotification id l)
        = expireNotification id l := by
  refine ⟨?_, ?_, ?_, ?_⟩
  · simp [addNotification]
  · simp [addNotification]
  · intro n hn
    simp only [fireTimer, addNotification, expireNotification,
      List.mem_filter] at hn
    simpa using hn.2
  · simp [expireNotification, List.filter_filter]

/-- Witness for C9 at concrete inputs: the scheduled timer, pushed entry
and the idempotence equation, at `now = 7` over a one-entry queue. -/
theorem notification_autoexpiry_witness :
    (({ fireAt := 7 + 3000, targetId := 7 } : NotifTimer)
        ∈ (addNotification 7 "Appointment booked successfully!"
            stSample).timers)
    ∧ (({ id := 7, message := "Appointment booked successfully!" }
          : Notification)
        ∈ (addNotification 7 "Appointment booked successfully!"
            stSample).notifications)
    ∧ expireNotification 7
        (expireNotification 7 [{ id := 7, message := "SOS Alert Sent!" }])
      = expireNotification 7 [{ id := 7, message := "SOS Alert Sent!" }] :=
  ⟨(notification_autoexpiry stSample 7 "Appointment booked successfully!"
      [{ id := 7, message := "SOS Alert Sent!" }] 7).1,
   (notification_autoexpiry stSample 7 "Appointment booked successfully!"
      [{ id := 7, message := "SOS Alert Sent!" }] 7).2.1,
   (notification_autoexpiry stSample 7 "Appointment booked successfully!"
      [{ id := 7, message := "SOS Alert Sent!" }] 7).2.2.2⟩

/-! ## C10 -/

/-- An `App` state with nothing in it, for the notification scenario. -/
def stEmpty : AppSt :=
  { users := [], currentUser := none, sessionMarked := [],
    reminderAppointment := none, notifications := [], timers := [],
    currentPage := .Home, previousPage := .Home }

/-- C10: two notifications pushed at the same millisecond (`Date.now()`
both 7) receive the same id, and a single expiry of that id removes BOTH
entries, not just one. -/
theorem notification_same_ms_share_id :
    ((addNotification 7 "b" (addNotification 7 "a" stEmpty)).notifications.map
        (fun n => n.id) = [7, 7])
    ∧ expireNotification 7
        (addNotification 7 "b" (addNotification 7 "a" stEmpty)).notifications
      = [] := by
  constructor <;> rfl
